import Mathlib

/-!
Shallow embedding of the realtime WebSocket client (`src/realtime.ts` of
fal-js) and proofs about it.  The embedding follows the source file
function by function:

* `getToken` / `getTokenRequest` — the token request body built from the
  application identifier (split on `-`, drop the first segment, rejoin).
* `connectionManager` — the process-wide token store, auth-in-progress
  flags and connection registry, embedded as a transition system over
  association lists (a JS `Map` keeps at most one binding per key; `set`
  replaces in place, `delete` removes).
* the per-session closure state (`pendingMessage`, `reconnecting`, `ws`)
  and the functions `_send`, `reconnect`, the socket lifecycle handlers
  `onopen` / `onclose` / `onerror` / `onmessage`, and `close`.
* the throttle wrapper around `send` (the throttle utility itself lives
  in `./utils`, outside the provided sources, and is modelled from the
  spec).

Machine-facing effects (frames written to the socket, `onError` calls,
registry mutations, scheduled timers) are returned as explicit action
lists so that theorems can speak about exactly what a code path emits.
-/

namespace FalRealtime

/-! ## JS `Map` primitives as association lists

A JS `Map` holds at most one binding per key.  `Map.set` replaces the
binding in place when the key is present and appends otherwise;
`Map.delete` removes the binding; `Map.get` returns the value or
`undefined`. -/

def mapSet {α : Type} [DecidableEq α] {β : Type} (k : α) (v : β)
    (m : List (α × β)) : List (α × β) :=
  if m.any (fun p => p.1 = k) then
    m.map (fun p => if p.1 = k then (k, v) else p)
  else
    m ++ [(k, v)]

def mapDelete {α : Type} [DecidableEq α] {β : Type} (k : α)
    (m : List (α × β)) : List (α × β) :=
  m.filter (fun p => p.1 ≠ k)

def mapGet {α : Type} [DecidableEq α] {β : Type} (k : α)
    (m : List (α × β)) : Option β :=
  (m.find? (fun p => p.1 = k)).map (fun p => p.2)

/-! ## `getToken`: the token request body

Source (`getToken`):

  const [_, ...appAlias] = app.split('-');
  ... dispatchRequest('POST', `.../tokens/`, {
    allowed_apps: [appAlias.join('-')],
    token_expiration: 120,
  })

Strings are embedded as `List Char`.  `splitOnChar` is JS
`String.prototype.split` for a single-character separator and
`joinWithChar` is `Array.prototype.join`. -/

def splitOnChar (c : Char) : List Char → List (List Char)
  | [] => [[]]
  | x :: xs =>
    match splitOnChar c xs with
    | [] => [[]]
    | w :: ws => if x = c then [] :: w :: ws else (x :: w) :: ws

def joinWithChar (c : Char) : List (List Char) → List Char
  | [] => []
  | [w] => w
  | w :: ws => w ++ c :: joinWithChar c ws

structure TokenRequest where
  allowed_apps : List (List Char)
  token_expiration : Nat
  deriving Repr, DecidableEq

def TOKEN_EXPIRATION_SECONDS : ℚ := 120

/-- The body of the POST to the token endpoint, as built by `getToken`:
the first `-`-separated segment of the app id is dropped and the rest is
rejoined with `-`. -/
def getTokenRequest (app : List Char) : TokenRequest :=
  { allowed_apps := [joinWithChar '-' ((splitOnChar '-' app).tail)]
    token_expiration := 120 }

/-- The spec-side reading of the alias: everything up to and including
the first `-` removed (empty when there is no `-`). -/
def afterFirstDash (app : List Char) : List Char :=
  (app.dropWhile (fun x => x ≠ '-')).drop 1

theorem splitOnChar_ne_nil (c : Char) (l : List Char) :
    splitOnChar c l ≠ [] := by
  cases l with
  | nil => simp [splitOnChar]
  | cons x xs =>
    simp only [splitOnChar]
    rcases h : splitOnChar c xs with _ | ⟨w, ws⟩
    · simp
    · by_cases hx : x = c <;> simp [hx]

theorem joinWithChar_splitOnChar (c : Char) (l : List Char) :
    joinWithChar c (splitOnChar c l) = l := by
  induction l with
  | nil => rfl
  | cons x xs ih =>
    simp only [splitOnChar]
    rcases h : splitOnChar c xs with _ | ⟨w, ws⟩
    · exact absurd h (splitOnChar_ne_nil c xs)
    · rw [h] at ih
      by_cases hx : x = c
      · subst hx
        simp only [if_pos rfl]
        cases ws with
        | nil => simpa [joinWithChar] using ih
        | cons w' ws' => simpa [joinWithChar] using ih
      · simp only [if_neg hx]
        cases ws with
        | nil => simpa [joinWithChar] using ih
        | cons w' ws' => simpa [joinWithChar] using ih

theorem join_tail_splitOnChar (c : Char) (l : List Char) :
    joinWithChar c ((splitOnChar c l).tail)
      = (l.dropWhile (fun x => x ≠ c)).drop 1 := by
  induction l with
  | nil => rfl
  | cons x xs ih =>
    simp only [splitOnChar]
    rcases h : splitOnChar c xs with _ | ⟨w, ws⟩
    · exact absurd h (splitOnChar_ne_nil c xs)
    · by_cases hx : x = c
      · subst hx
        simp only [if_pos rfl, List.tail_cons]
        have hjoin := joinWithChar_splitOnChar x xs
        rw [h] at hjoin
        simp [List.dropWhile, hjoin]
      · simp only [if_neg hx, List.tail_cons]
        rw [h] at ih
        simpa [List.dropWhile, hx] using ih

/-- C10: for every application identifier passed to `connect`, the token
request lists as its allowed application the identifier with everything
up to and including the first `-` removed; an identifier with no `-`
yields the empty string. -/
theorem getTokenRequest_allowed_apps (app : List Char) :
    (getTokenRequest app).allowed_apps = [afterFirstDash app] ∧
      (getTokenRequest app).token_expiration = 120 := by
  refine ⟨?_, rfl⟩
  simp [getTokenRequest, afterFirstDash, join_tail_splitOnChar]

/-! ## The connection manager (`connectionManager` IIFE)

Source state:

  const connections = new Map<string, WebSocket>();
  const tokens = new Map<string, string>();
  const isAuthInProgress = new Map<string, true>();

`refreshToken` performs the external `getToken` call (a suspension
point), then synchronously stores the token under the app, schedules its
deletion `TOKEN_EXPIRATION_SECONDS * 0.9 * 1000` milliseconds later, and
returns it.  The embedding takes the outcome of the external call as a
parameter and returns the updated token map, the scheduled deletion
delay in milliseconds, and the token. -/

structure MgrState where
  tokens : List (String × String)
  connections : List (String × Nat)
  authInProgress : List String
  inflight : List (String × String)
  nextSock : Nat
  deriving Repr, DecidableEq

def mgrInit : MgrState :=
  { tokens := [], connections := [], authInProgress := [], inflight := []
    nextSock := 0 }

def refreshToken (app : String) (fetched : Except String String)
    (tokens : List (String × String)) :
    Except String (List (String × String) × ℚ × String) :=
  match fetched with
  | .error e => .error e
  | .ok tok =>
    .ok (mapSet app tok tokens, TOKEN_EXPIRATION_SECONDS * (9 / 10) * 1000, tok)

/-- The events that touch the manager's shared state.  `startConn` is
the synchronous prefix of `getConnection` (up to the `await` on
`refreshToken`), run whenever a session's `reconnect` reaches
`getConnection`.  `tokenOk`/`tokenErr` are the resumption after the
awaited external token call settles: on success `refreshToken` stores
the token, then `getConnection` clears the flag, opens the socket and
registers it; on failure the exception propagates out of
`getConnection` (the flag-clearing line is skipped).  `timerFire` is the
scheduled token deletion; `sockError` is the `ws.onerror` handler
(expire token, remove registry entry); `sockClose` is the registry
removal done by `ws.onclose`. -/
inductive MgrEv where
  | startConn (app key : String)
  | tokenOk (app key tok : String)
  | tokenErr (app key : String)
  | timerFire (app : String)
  | sockError (app key : String)
  | sockClose (key : String)
  deriving Repr, DecidableEq

def mgrStep (s : MgrState) : MgrEv → MgrState
  | .startConn app key =>
    if app ∈ s.authInProgress then
      -- `getConnection` throws 'Authentication in progress'
      s
    else if s.connections.any (fun p => p.1 = key) then
      -- registry hit: reuse the existing socket
      s
    else
      match mapGet app s.tokens with
      | some _ =>
        -- cached token: open and register a socket synchronously
        { s with connections := mapSet key s.nextSock s.connections
                 nextSock := s.nextSock + 1 }
      | none =>
        -- setAuthInProgress(app, true); token request goes in flight
        { s with authInProgress := app :: s.authInProgress
                 inflight := (app, key) :: s.inflight }
  | .tokenOk app key tok =>
    if (app, key) ∈ s.inflight then
      match refreshToken app (.ok tok) s.tokens with
      | .ok (tokens', _, _) =>
        { s with inflight := s.inflight.erase (app, key)
                 tokens := tokens'
                 authInProgress := s.authInProgress.filter (fun a => a ≠ app)
                 connections := mapSet key s.nextSock s.connections
                 nextSock := s.nextSock + 1 }
      | .error _ => s
    else s
  | .tokenErr app key =>
    if (app, key) ∈ s.inflight then
      -- the await throws: setAuthInProgress(app, false) is never reached
      { s with inflight := s.inflight.erase (app, key) }
    else s
  | .timerFire app =>
    { s with tokens := mapDelete app s.tokens }
  | .sockError app key =>
    { s with tokens := mapDelete app s.tokens
             connections := mapDelete key s.connections }
  | .sockClose key =>
    { s with connections := mapDelete key s.connections }

def mgrRun (tr : List MgrEv) : MgrState :=
  tr.foldl mgrStep mgrInit

/-- Number of cached tokens for `app`. -/
def tokenCount (app : String) (s : MgrState) : Nat :=
  s.tokens.countP (fun p => p.1 = app)

/-- Number of token requests in flight for `app`. -/
def inflightCount (app : String) (s : MgrState) : Nat :=
  s.inflight.countP (fun p => p.1 = app)

theorem countP_mapSet_le {β : Type} (k app : String) (v : β)
    (m : List (String × β)) (h : m.countP (fun p => p.1 = app) ≤ 1) :
    (mapSet k v m).countP (fun p => p.1 = app) ≤ 1 := by
  unfold mapSet
  by_cases hany : m.any (fun p => p.1 = k)
  · rw [if_pos hany, List.countP_map]
    refine le_trans (le_of_eq (List.countP_congr ?_)) h
    intro a _
    by_cases h1 : a.1 = k <;> simp [Function.comp, h1]
  · rw [if_neg hany, List.countP_append]
    by_cases hk : k = app
    · subst hk
      have hzero : m.countP (fun p => p.1 = k) = 0 := by
        rw [List.countP_eq_zero]
        intro a ha hc
        exact hany (List.any_eq_true.mpr ⟨a, ha, hc⟩)
      simp [hzero]
    · simp [hk, h]

theorem countP_sublist_le {α : Type} (p : α → Bool) {l l' : List α}
    (hs : l.Sublist l') (h : l'.countP p ≤ 1) : l.countP p ≤ 1 :=
  le_trans (hs.countP_le p) h

theorem countP_erase_of_mem (app key : String)
    (l : List (String × String)) (hmem : (app, key) ∈ l)
    (h : l.countP (fun p => p.1 = app) ≤ 1) :
    (l.erase (app, key)).countP (fun p => p.1 = app) = 0 := by
  induction l with
  | nil => cases hmem
  | cons a as ih =>
    rw [List.erase_cons]
    rw [List.countP_cons] at h
    by_cases ha : a = (app, key)
    · rw [if_pos (by simp [ha])]
      rw [if_pos (by simp [ha])] at h
      omega
    · rw [if_neg (by simp [ha])]
      have hmem' : (app, key) ∈ as := by
        rcases List.mem_cons.mp hmem with h1 | h1
        · exact absurd h1.symm ha
        · exact h1
      rw [List.countP_cons]
      by_cases hpa : a.1 = app
      · exfalso
        have hpos : 0 < as.countP (fun p => p.1 = app) :=
          List.countP_pos_iff.mpr ⟨(app, key), hmem', by simp⟩
        rw [if_pos (by simp [hpa])] at h
        omega
      · rw [if_neg (by simp [hpa])] at h
        rw [if_neg (by simp [hpa])]
        simp [ih hmem' (by omega)]


def MgrInv (s : MgrState) : Prop :=
  ∀ app : String,
    tokenCount app s ≤ 1 ∧ inflightCount app s ≤ 1 ∧
      (0 < inflightCount app s → app ∈ s.authInProgress)

theorem mgrInv_init : MgrInv mgrInit := by
  intro app
  simp [mgrInit, tokenCount, inflightCount]

theorem mgrInv_step (s : MgrState) (e : MgrEv) (h : MgrInv s) :
    MgrInv (mgrStep s e) := by
  cases e with
  | startConn app0 key0 =>
    simp only [mgrStep]
    by_cases hauth : app0 ∈ s.authInProgress
    · rw [if_pos hauth]; exact h
    rw [if_neg hauth]
    by_cases hconn : s.connections.any (fun p => p.1 = key0)
    · rw [if_pos hconn]; exact h
    rw [if_neg hconn]
    cases hget : mapGet app0 s.tokens with
    | some tok => exact h
    | none =>
      intro app
      rcases h app with ⟨h1, h2, h3⟩
      refine ⟨h1, ?_, ?_⟩
      · show ((app0, key0) :: s.inflight).countP (fun p => p.1 = app) ≤ 1
        rw [List.countP_cons]
        by_cases happ : app0 = app
        · subst happ
          have hz : inflightCount app0 s = 0 := by
            by_contra hne
            exact hauth (h3 (Nat.pos_of_ne_zero hne))
          simp only [inflightCount] at hz
          simp [hz]
        · simp only [inflightCount] at h2
          simp [happ, h2]
      · intro hpos
        have hpos' : 0 < ((app0, key0) :: s.inflight).countP
            (fun p => p.1 = app) := hpos
        by_cases happ : app0 = app
        · subst happ
          exact List.mem_cons_self _ _
        · show app ∈ app0 :: s.authInProgress
          refine List.mem_cons_of_mem _ (h3 ?_)
          rw [List.countP_cons] at hpos'
          rw [if_neg (by simp [happ])] at hpos'
          simpa [inflightCount] using hpos'
  | tokenOk app0 key0 tok =>
    simp only [mgrStep]
    by_cases hmem : (app0, key0) ∈ s.inflight
    · rw [if_pos hmem]
      simp only [refreshToken]
      intro app
      rcases h app with ⟨h1, h2, h3⟩
      refine ⟨?_, ?_, ?_⟩
      · exact countP_mapSet_le app0 app tok s.tokens h1
      · show (s.inflight.erase (app0, key0)).countP (fun p => p.1 = app) ≤ 1
        exact countP_sublist_le _ (List.erase_sublist _ _) h2
      · intro hpos
        have hpos' : 0 < (s.inflight.erase (app0, key0)).countP
            (fun p => p.1 = app) := hpos
        show app ∈ s.authInProgress.filter (fun a => a ≠ app0)
        by_cases happ : app = app0
        · exfalso
          subst happ
          have hz := countP_erase_of_mem app key0 s.inflight hmem h2
          rw [hz] at hpos'
          exact Nat.lt_irrefl 0 hpos'
        · rw [List.mem_filter]
          have hold : 0 < inflightCount app s := by
            have hle := (List.erase_sublist (app0, key0) s.inflight).countP_le
              (fun p => p.1 = app)
            simp only [inflightCount]
            omega
          exact ⟨h3 hold, by simp [happ]⟩
    · rw [if_neg hmem]; exact h
  | tokenErr app0 key0 =>
    simp only [mgrStep]
    by_cases hmem : (app0, key0) ∈ s.inflight
    · rw [if_pos hmem]
      intro app
      rcases h app with ⟨h1, h2, h3⟩
      have hle := (List.erase_sublist (app0, key0) s.inflight).countP_le
        (fun p => p.1 = app)
      refine ⟨h1, ?_, ?_⟩
      · show (s.inflight.erase (app0, key0)).countP (fun p => p.1 = app) ≤ 1
        simp only [inflightCount] at h2
        omega
      · intro hpos
        have hpos' : 0 < (s.inflight.erase (app0, key0)).countP
            (fun p => p.1 = app) := hpos
        refine h3 ?_
        simp only [inflightCount]
        omega
    · rw [if_neg hmem]; exact h
  | timerFire app0 =>
    intro app
    rcases h app with ⟨h1, h2, h3⟩
    refine ⟨?_, h2, h3⟩
    show (mapDelete app0 s.tokens).countP (fun p => p.1 = app) ≤ 1
    exact countP_sublist_le _ (List.filter_sublist _) h1
  | sockError app0 key0 =>
    intro app
    rcases h app with ⟨h1, h2, h3⟩
    refine ⟨?_, h2, h3⟩
    show (mapDelete app0 s.tokens).countP (fun p => p.1 = app) ≤ 1
    exact countP_sublist_le _ (List.filter_sublist _) h1
  | sockClose key0 =>
    intro app
    rcases h app with ⟨h1, h2, h3⟩
    exact ⟨h1, h2, h3⟩

theorem mgrInv_run (tr : List MgrEv) : MgrInv (mgrRun tr) := by
  have hgen : ∀ (l : List MgrEv) (s : MgrState), MgrInv s →
      MgrInv (l.foldl mgrStep s) := by
    intro l
    induction l with
    | nil => intro s hs; exact hs
    | cons e es ih =>
      intro s hs
      exact ih (mgrStep s e) (mgrInv_step s e hs)
  exact hgen tr mgrInit mgrInv_init



/-- C5: for every application identifier and every interleaving of
manager-touching operations (connection acquisitions, token-call
completions, timer fires, socket errors and closes), the token store
holds at most one token for that application and at most one
token-refresh request is in flight for it. -/
theorem single_token_single_refresh (tr : List MgrEv) (app : String) :
    tokenCount app (mgrRun tr) ≤ 1 ∧ inflightCount app (mgrRun tr) ≤ 1 :=
  ⟨(mgrInv_run tr app).1, (mgrInv_run tr app).2.1⟩

theorem mapGet_mapSet {α : Type} [DecidableEq α] {β : Type} (k : α) (v : β)
    (m : List (α × β)) : mapGet k (mapSet k v m) = some v := by
  induction m with
  | nil => simp [mapGet, mapSet]
  | cons a as ih =>
    simp only [mapSet, List.any_cons] at ih ⊢
    by_cases ha : a.1 = k
    · simp [mapGet, ha, List.find?_cons]
    · by_cases hany : as.any (fun p => p.1 = k)
      · rw [if_pos hany] at ih
        rw [if_pos (by simp [ha, hany])]
        simpa [mapGet, List.find?_cons, ha] using ih
      · rw [if_neg hany] at ih
        rw [if_neg (by simp [ha, hany])]
        simpa [mapGet, List.find?_cons, ha] using ih

/-- C9: `refreshToken` fails when the external token-issuing call
fails; on success it stores the token for the application, schedules
the token's removal 108000 milliseconds (= 108 seconds, 90% of the
120-second nominal lifetime) after storage, and returns the token. -/
theorem refreshToken_behaviour (app e tok : String)
    (tokens : List (String × String)) :
    refreshToken app (.error e) tokens = .error e ∧
      refreshToken app (.ok tok) tokens
        = .ok (mapSet app tok tokens, 108000, tok) ∧
      mapGet app (mapSet app tok tokens) = some tok := by
  refine ⟨rfl, ?_, mapGet_mapSet app tok tokens⟩
  have : TOKEN_EXPIRATION_SECONDS * (9 / 10) * 1000 = (108000 : ℚ) := by
    norm_num [TOKEN_EXPIRATION_SECONDS]
  simp [refreshToken, this]

/-- C3 (code bug): the auth-in-progress flag for an application is set
when a connection-acquisition run starts a token refresh, and the
success resumption clears it; but when the external token call fails
the flag-clearing line after the `await` is never reached, so the flag
stays set even though no request is in flight any more. -/
theorem authFlag_stuck_after_failed_refresh :
    (mgrRun [.startConn "app" "key", .tokenOk "app" "key" "tok"]).authInProgress
        = [] ∧
      (mgrRun [.startConn "app" "key", .tokenErr "app" "key"]).authInProgress
        = ["app"] ∧
      (mgrRun [.startConn "app" "key", .tokenErr "app" "key"]).inflight = [] := by
  decide

/-! ## The per-session state (the `connect` closure)

Source:

  let pendingMessage: Input | undefined = undefined;
  let reconnecting = false;
  let ws: WebSocket | null = null;

`WebSocket.readyState` values are CONNECTING 0, OPEN 1, CLOSING 2,
CLOSED 3.  The functions below embed `_send`, `reconnect` (taking the
current value of `connectionManager.isAuthInProgress(app)` as an
argument, and recording the asynchronous `getConnection(...)` call as
an `acquire` action whose `.then`/`.catch` and listener continuations
are the separate events `connected`, `connectFailed`, `onopen`,
`onclose`, `onerror`), the message handler, and `close`.  The
`throttleInterval <= 0` configuration is used here, in which `send` is
`_send` itself; the throttle wrapper is embedded separately below.
Actions record the observable effects: frames written with `ws.send`,
`onError` callbacks, registry and token-store mutations, and close
frames. -/

def WS_CONNECTING : Nat := 0
def WS_OPEN : Nat := 1
def WS_CLOSED : Nat := 3

/-- Source `WebSocketErrorCodes` (RFC 6455 section 7.4.1). -/
def NORMAL_CLOSURE : Nat := 1000
def GOING_AWAY : Nat := 1001

structure Sock where
  readyState : Nat
  deriving Repr, DecidableEq

structure SessState (I : Type) where
  pendingMessage : Option I
  reconnecting : Bool
  ws : Option Sock
  deriving Repr, DecidableEq

inductive Action (I : Type) where
  | frame (requestId : Nat) (input : I)
  | acquire
  | onError (status : Nat) (message : String)
  | closeFrame (code : Nat) (reason : String)
  | removeRegistry
  | expireToken
  deriving Repr, DecidableEq

/-- `ws && ws.readyState === WebSocket.OPEN`. -/
def wsOpen : Option Sock → Bool
  | some c => c.readyState = WS_OPEN
  | none => false

def reconnect {I : Type} (authInProgress : Bool) (s : SessState I) :
    SessState I × List (Action I) :=
  if wsOpen s.ws then (s, [])
  else if authInProgress then (s, [])
  else (s, [Action.acquire])

def _send {I : Type} (requestId : Nat) (authInProgress : Bool)
    (input : I) (s : SessState I) : SessState I × List (Action I) :=
  if wsOpen s.ws then
    (s, [Action.frame requestId input])
  else
    let s1 : SessState I := { s with pendingMessage := some input }
    if s1.reconnecting then (s1, [])
    else reconnect authInProgress { s1 with reconnecting := true }

/-- `.then((connection) => { ws = connection; ... })`: a freshly created
WebSocket starts in the CONNECTING state. -/
def connected {I : Type} (s : SessState I) : SessState I :=
  { s with ws := some { readyState := WS_CONNECTING } }

/-- `.catch((error) => { onError(new ApiError(...)) })`.  Note that
`reconnecting` is left untouched. -/
def connectFailed {I : Type} (s : SessState I) : SessState I × List (Action I) :=
  (s, [Action.onError 500 "Error opening connection"])

/-- `ws.onopen`: the socket has transitioned to OPEN. -/
def onopen {I : Type} (requestId : Nat) (authInProgress : Bool)
    (s : SessState I) : SessState I × List (Action I) :=
  let s1 : SessState I :=
    { s with ws := some { readyState := WS_OPEN }, reconnecting := false }
  match s1.pendingMessage with
  | some m =>
    let r := _send requestId authInProgress m s1
    ({ r.1 with pendingMessage := none }, r.2)
  | none => (s1, [])

def onclose {I : Type} (code : Nat) (reason : String) (s : SessState I) :
    SessState I × List (Action I) :=
  ({ s with ws := none },
    Action.removeRegistry ::
      if code ≠ NORMAL_CLOSURE then
        [Action.onError code ("Error closing the connection: " ++ reason)]
      else [])

def onerror {I : Type} (s : SessState I) : SessState I × List (Action I) :=
  ({ s with ws := none },
    [Action.expireToken, Action.removeRegistry,
      Action.onError 500 "Unknown error"])

def close {I : Type} (s : SessState I) : SessState I × List (Action I) :=
  match s.ws with
  | some c =>
    if c.readyState = WS_CLOSED then
      (s, [Action.closeFrame GOING_AWAY "Client manually closed the connection."])
    else (s, [])
  | none => (s, [])

def framesOf {I : Type} : List (Action I) → List (Nat × I)
  | [] => []
  | Action.frame r i :: as => (r, i) :: framesOf as
  | _ :: as => framesOf as

def errorsOf {I : Type} : List (Action I) → List (Nat × String)
  | [] => []
  | Action.onError st m :: as => (st, m) :: errorsOf as
  | _ :: as => errorsOf as

def acquiresOf {I : Type} : List (Action I) → Nat
  | [] => 0
  | Action.acquire :: as => acquiresOf as + 1
  | _ :: as => acquiresOf as

/-- Repeated calls to `close`, collecting the emitted actions. -/
def closeIter {I : Type} : Nat → SessState I → List (Action I)
  | 0, _ => []
  | n + 1, s => (close s).2 ++ closeIter n (close s).1

theorem send_not_open {I : Type} (r : Nat) (a : Bool) (m : I)
    (s : SessState I) (h : wsOpen s.ws = false) :
    ((_send r a m s).1.pendingMessage = some m) ∧
      ((_send r a m s).1.ws = s.ws) ∧
      framesOf (_send r a m s).2 = [] := by
  by_cases hr : s.reconnecting <;> by_cases ha : a <;>
    simp [_send, reconnect, h, hr, ha, framesOf]

theorem onopen_delivers {I : Type} (r : Nat) (a : Bool) (t : SessState I)
    (m : I) (hp : t.pendingMessage = some m) :
    framesOf (onopen r a (connected t)).2 = [(r, m)] ∧
      (onopen r a (connected t)).1.pendingMessage = none := by
  simp [onopen, connected, hp, _send, wsOpen, WS_OPEN, framesOf]

/-- C4: the pending-message slot holds at most one message.  If sends
m1 then m2 happen while the socket is not open, m2 overwrites m1; no
frame is written by either send; when the socket is subsequently
created and opens, exactly m2 is delivered (never m1, never both) and
the slot is cleared. -/
theorem pending_slot_latest_wins {I : Type} (s : SessState I)
    (m1 m2 : I) (r1 r2 r3 : Nat) (a1 a2 a3 : Bool)
    (h : wsOpen s.ws = false) :
    (_send r2 a2 m2 (_send r1 a1 m1 s).1).1.pendingMessage = some m2 ∧
      framesOf (_send r1 a1 m1 s).2 = [] ∧
      framesOf (_send r2 a2 m2 (_send r1 a1 m1 s).1).2 = [] ∧
      framesOf
          (onopen r3 a3
            (connected (_send r2 a2 m2 (_send r1 a1 m1 s).1).1)).2
        = [(r3, m2)] ∧
      (onopen r3 a3
          (connected (_send r2 a2 m2 (_send r1 a1 m1 s).1).1)).1.pendingMessage
        = none := by
  obtain ⟨p1, w1, f1⟩ := send_not_open r1 a1 m1 s h
  have h1 : wsOpen (_send r1 a1 m1 s).1.ws = false := by rw [w1]; exact h
  obtain ⟨p2, w2, f2⟩ := send_not_open r2 a2 m2 _ h1
  obtain ⟨fo, po⟩ := onopen_delivers r3 a3 _ m2 p2
  exact ⟨p2, f1, f2, fo, po⟩

theorem pending_slot_latest_wins_witness :
    wsOpen ((⟨none, false, none⟩ : SessState Nat)).ws = false ∧
      ((_send 8 false 22
          (_send 7 true 11 (⟨none, false, none⟩ : SessState Nat)).1).1.pendingMessage
          = some 22 ∧
        framesOf (_send 7 true 11 (⟨none, false, none⟩ : SessState Nat)).2 = [] ∧
        framesOf (_send 8 false 22
            (_send 7 true 11 (⟨none, false, none⟩ : SessState Nat)).1).2 = [] ∧
        framesOf
            (onopen 9 false
              (connected (_send 8 false 22
                (_send 7 true 11 (⟨none, false, none⟩ : SessState Nat)).1).1)).2
          = [(9, 22)] ∧
        (onopen 9 false
            (connected (_send 8 false 22
              (_send 7 true 11
                (⟨none, false, none⟩ : SessState Nat)).1).1)).1.pendingMessage
          = none) :=
  ⟨rfl, pending_slot_latest_wins _ 11 22 7 8 9 true false false rfl⟩

/-- C1 (code bug): a send while the socket is not open and no reconnect
is under way sets `reconnecting` and runs `reconnect`; when that
attempt is silently aborted because an authentication refresh is in
progress, `reconnecting` stays `true`, so the next send (here after the
refresh has finished) does not run the connection-acquisition algorithm
again — it only overwrites the pending slot. -/
theorem send_after_aborted_attempt_does_not_retry :
    acquiresOf (_send 0 true 1 (⟨none, false, none⟩ : SessState Nat)).2 = 0 ∧
      (_send 0 true 1 (⟨none, false, none⟩ : SessState Nat)).1.reconnecting
        = true ∧
      acquiresOf (_send 2 false 2
          (_send 0 true 1 (⟨none, false, none⟩ : SessState Nat)).1).2 = 0 ∧
      (_send 2 false 2
          (_send 0 true 1 (⟨none, false, none⟩ : SessState Nat)).1).1.pendingMessage
        = some 2 := by
  decide

/-- C2 (code bug): `ws.onclose` removes the registry entry and clears
the socket reference for every close, and builds the ApiError from the
close code and the server-supplied reason; but only code 1000 is
exempted from the error callback: a close with code 1001 (going away)
also surfaces an ApiError, although the code's own
`WebSocketErrorCodes` table lists 1001 next to 1000 as an expected
closure. -/
theorem onclose_1001_raises_error :
    (onclose 1001 "server going away"
        (⟨none, false, some ⟨1⟩⟩ : SessState Nat)).2
      = [Action.removeRegistry,
          Action.onError 1001 "Error closing the connection: server going away"] ∧
      (onclose 1000 "done" (⟨none, false, some ⟨1⟩⟩ : SessState Nat)).2
        = [Action.removeRegistry] ∧
      (onclose 1006 "timeout" (⟨none, false, some ⟨1⟩⟩ : SessState Nat)).2
        = [Action.removeRegistry,
            Action.onError 1006 "Error closing the connection: timeout"] ∧
      (onclose 1001 "server going away"
          (⟨none, false, some ⟨1⟩⟩ : SessState Nat)).1.ws = none := by
  decide

/-- C6: `close` acts only when the socket exists and is already in the
CLOSED state, in which case it issues a close frame with the going-away
code 1001 and a client-initiated reason; it never invokes the error
callback, so calling `close` any number of times on an already-closed
session produces no additional error callbacks. -/
theorem close_goingAway_no_errors {I : Type} (s : SessState I) (n : Nat) :
    ((close s).2
        = [Action.closeFrame GOING_AWAY "Client manually closed the connection."]
      ↔ ∃ c, s.ws = some c ∧ c.readyState = WS_CLOSED) ∧
      ((¬ ∃ c, s.ws = some c ∧ c.readyState = WS_CLOSED) → (close s).2 = []) ∧
      errorsOf (closeIter n s) = [] := by
  have hcases : ∀ t : SessState I, (close t).1 = t ∧ errorsOf (close t).2 = [] := by
    intro t
    rcases ht : t.ws with _ | c
    · simp [close, ht, errorsOf]
    · by_cases hc : c.readyState = WS_CLOSED <;> simp [close, ht, hc, errorsOf]
  refine ⟨?_, ?_, ?_⟩
  · constructor
    · intro hact
      rcases ht : s.ws with _ | c
      · simp [close, ht] at hact
      · by_cases hc : c.readyState = WS_CLOSED
        · exact ⟨c, rfl, hc⟩
        · simp [close, ht, hc] at hact
    · rintro ⟨c, hws, hc⟩
      simp [close, hws, hc]
  · intro hno
    rcases ht : s.ws with _ | c
    · simp [close, ht]
    · by_cases hc : c.readyState = WS_CLOSED
      · exact absurd ⟨c, ht, hc⟩ hno
      · simp [close, ht, hc]
  · induction n generalizing s with
    | zero => simp [closeIter, errorsOf]
    | succ k ih =>
      have herr : ∀ (l1 l2 : List (Action I)),
          errorsOf (l1 ++ l2) = errorsOf l1 ++ errorsOf l2 := by
        intro l1 l2
        induction l1 with
        | nil => simp [errorsOf]
        | cons a as iha => cases a <;> simp [errorsOf, iha]
      rw [closeIter, herr, ih ((close s).1)]
      simp [(hcases s).2]

theorem close_goingAway_no_errors_witness :
    (close (⟨none, false, some ⟨3⟩⟩ : SessState Nat)).2
      = [Action.closeFrame GOING_AWAY "Client manually closed the connection."] ∧
      errorsOf (closeIter 5 (⟨none, false, some ⟨3⟩⟩ : SessState Nat)) = [] :=
  ⟨(close_goingAway_no_errors _ 5).1.mpr ⟨⟨3⟩, rfl, rfl⟩,
    (close_goingAway_no_errors _ 5).2.2⟩

/-! ## `ws.onmessage`

Source:

  const data = JSON.parse(event.data);
  if (data.status !== 'error' && data.type !== 'x-fal-message') {
    onResult(data);
  }

An inbound message is embedded as its parsed `status` and `type` fields
(absent fields are `none`, matching `undefined !== 'error'`) together
with the rest of the payload; the handler's calls into the caller's
callbacks are returned explicitly. -/

structure InboundMsg where
  status : Option String
  type : Option String
  rest : String
  deriving Repr, DecidableEq

inductive HandlerCall where
  | result (msg : InboundMsg)
  | error (status : Nat) (message : String)
  deriving Repr, DecidableEq

def wsOnmessage (data : InboundMsg) : List HandlerCall :=
  if data.status ≠ some "error" ∧ data.type ≠ some "x-fal-message" then
    [HandlerCall.result data]
  else
    []

/-- C8: an inbound message whose parsed JSON carries status "error" or
the internal control type marker "x-fal-message" is never delivered to
onResult and triggers no onError; every other inbound message is
passed to onResult verbatim. -/
theorem onmessage_filtering (d : InboundMsg) :
    (d.status = some "error" ∨ d.type = some "x-fal-message" →
        wsOnmessage d = []) ∧
      (¬(d.status = some "error" ∨ d.type = some "x-fal-message") →
        wsOnmessage d = [HandlerCall.result d]) ∧
      (∀ st m, HandlerCall.error st m ∉ wsOnmessage d) := by
  by_cases h1 : d.status = some "error" <;>
    by_cases h2 : d.type = some "x-fal-message" <;>
      simp [wsOnmessage, h1, h2]

theorem onmessage_filtering_witness :
    wsOnmessage ⟨some "error", none, "bad input"⟩ = [] ∧
      wsOnmessage ⟨none, none, "img"⟩ = [HandlerCall.result ⟨none, none, "img"⟩] :=
  ⟨(onmessage_filtering _).1 (Or.inl rfl),
    (onmessage_filtering _).2.1 (by simp)⟩

/-! ## The throttle in front of `send`

Source (`connect`):

  throttleInterval = 64,            -- handler option default
  ...
  const send =
    throttleInterval > 0 ? throttle(_send, throttleInterval) : _send;

The `throttle` utility itself is imported from `./utils`, which is not
among the provided sources; it is modelled from the spec below. -/

/-- Modelled from the spec: the `throttle` utility of `./utils` (absent
from the provided sources).  Trailing-edge throttle step over timed
calls: the first call in a window records the window start and its
arguments; a call within `d` of the window start only replaces the
recorded arguments; a call at or after the window's end first delivers
the recorded arguments (at the instant the window elapsed) and starts a
new window. -/
def throttleStep {α : Type} (d : Nat) (st : Option (Nat × α))
    (c : Nat × α) : Option (Nat × α) × List (Nat × α) :=
  match st with
  | none => (some c, [])
  | some (w, la) =>
    if c.1 < w + d then (some (w, c.2), []) else (some c, [(w + d, la)])

/-- Modelled from the spec: once the window of the last recorded call
elapses, its arguments are delivered. -/
def throttleFlush {α : Type} (d : Nat) : Option (Nat × α) → List (Nat × α)
  | none => []
  | some (w, la) => [(w + d, la)]

def throttleGo {α : Type} (d : Nat) (st : Option (Nat × α)) :
    List (Nat × α) → List (Nat × α)
  | [] => throttleFlush d st
  | c :: cs => (throttleStep d st c).2 ++ throttleGo d (throttleStep d st c).1 cs

/-- Modelled from the spec: the deliveries produced by a throttled
function for a time-ordered list of calls. -/
def throttleRun {α : Type} (d : Nat) (calls : List (Nat × α)) :
    List (Nat × α) :=
  throttleGo d none calls

/-- Default of the `throttleInterval` option in `connect`. -/
def defaultThrottleInterval : Int := 64

/-- `throttleInterval > 0 ? throttle(_send, throttleInterval) : _send`:
with a positive interval the calls go through the throttle, otherwise
every call passes through unchanged. -/
def sendPipeline {α : Type} (throttleInterval : Int)
    (calls : List (Nat × α)) : List (Nat × α) :=
  if throttleInterval > 0 then throttleRun throttleInterval.toNat calls
  else calls

theorem throttleGo_window {α : Type} (d t0 : Nat) (la : α)
    (rest : List (Nat × α)) (hw : ∀ p ∈ rest, p.1 < t0 + d) :
    throttleGo d (some (t0, la)) rest
      = [(t0 + d, (rest.map Prod.snd).getLastD la)] := by
  induction rest generalizing la with
  | nil => simp [throttleGo, throttleFlush]
  | cons c cs ih =>
    have hc : c.1 < t0 + d := hw c (by simp)
    simp only [throttleGo, throttleStep, if_pos hc, List.nil_append,
      List.map_cons, List.getLastD_cons]
    exact ih c.2 (fun p hp => hw p (by simp [hp]))

/-- C7: `send` is wrapped in a trailing-edge throttle whose default
interval is 64 ms: of N calls within one throttle window, exactly one
frame is written, carrying the arguments of the last call in the
window; when the configured throttleInterval is not positive, the
throttle is bypassed and every call passes through unchanged. -/
theorem throttle_coalescing {α : Type} (t0 : Nat) (a0 : α)
    (rest calls : List (Nat × α)) (d : Int)
    (hw : ∀ p ∈ rest, p.1 < t0 + 64) (hd : d ≤ 0) :
    defaultThrottleInterval = 64 ∧
      sendPipeline defaultThrottleInterval ((t0, a0) :: rest)
        = [(t0 + 64, (rest.map Prod.snd).getLastD a0)] ∧
      sendPipeline d calls = calls := by
  refine ⟨rfl, ?_, ?_⟩
  · have h64 : (defaultThrottleInterval > 0) = True := by
      simp [defaultThrottleInterval]
    simp only [sendPipeline, h64, if_true]
    have htn : defaultThrottleInterval.toNat = 64 := rfl
    rw [htn]
    simp only [throttleRun, throttleGo, throttleStep, List.nil_append]
    exact throttleGo_window 64 t0 a0 rest hw
  · have : ¬ (d > 0) := by omega
    simp [sendPipeline, this]

theorem throttle_coalescing_witness :
    sendPipeline (α := Nat) defaultThrottleInterval [(0, 5), (10, 6), (20, 7)]
        = [(64, 7)] ∧
      sendPipeline (α := Nat) 0 [(0, 5), (1, 6)] = [(0, 5), (1, 6)] := by
  have h := throttle_coalescing 0 5 [(10, 6), (20, 7)]
    [((0 : Nat), (5 : Nat)), (1, 6)] 0 (by decide) (by decide)
  exact ⟨by simpa using h.2.1, h.2.2⟩
